import Mathlib

/-!
Verification of the AI-Assistant frontend against its specification.

The development shallowly embeds the relevant parts of the TypeScript
source:

* the chat response parsing logic of `handleSend` in
  `src/components/layout/AIAssistant.tsx` (fenced code-block extraction,
  suggestion-list extraction);
* the application store `src/store/appStore.ts` (`addQuery`,
  `removeQuery`, `setActiveQuery`, `getActiveQuery`, `addDataSource`);
* the notebook controller of `DatabricksNotebook` (`runAll`,
  `onMoveUp` / `onMoveDown`);
* the multi-file upload loop `uploadFilesToBackend` of `UploadZone`;
* the chat-panel scroll logic (`handleScroll` and the auto-scroll
  effect) of `AIAssistant.tsx`.

JavaScript strings are modelled as `List Char` (all inputs considered
are in the basic multilingual plane, so code-unit indices coincide with
character indices); `undefined`-able values as `Option`; the
nondeterministic `crypto.randomUUID()` and `new Date()` as explicit
parameters; remote calls as oracle functions passed to the model.
-/

namespace AIAssist

/-- The whitespace characters stripped by JavaScript `String.prototype.trim`
(restricted to the ASCII range, which covers every input considered here). -/
def isJsWhitespace (c : Char) : Bool :=
  c = ' ' || c = '\n' || c = '\t' || c = '\r' || c = '\x0b' || c = '\x0c'

/-- JavaScript `trim` on a character list: strip leading and trailing
whitespace. -/
def trimL (s : List Char) : List Char :=
  ((s.dropWhile isJsWhitespace).reverse.dropWhile isJsWhitespace).reverse

/-- Word characters of the JavaScript regex class `\w`: ASCII letters,
digits and underscore. -/
def isWordChar (c : Char) : Bool :=
  c.isAlpha || c.isDigit || c = '_'

/-- Index of the first occurrence of `needle` in `hay`, if any
(JavaScript `String.prototype.indexOf`). -/
def findSub (needle : List Char) : List Char → Option Nat
  | [] => if needle.isEmpty then some 0 else none
  | c :: rest =>
    if needle.isPrefixOf (c :: rest) then some 0
    else (findSub needle rest).map (· + 1)

/-- The three-backtick fence delimiter. -/
def tripleTick : List Char := ['`', '`', '`']

/-- JavaScript `includes` of a triple backtick. -/
def includesTriple (s : List Char) : Bool :=
  (findSub tripleTick s).isSome

/-- Attempt to match the regex body of three backticks, then `(?:\w+)?\n?`,
then a lazy capture up to a closing three-backtick fence, starting
immediately after an opening fence at offset `i` of `s`.  Returns the
end position of the whole match (exclusive) and the captured inner text. -/
def matchFenceAt (s : List Char) (i : Nat) : Option (Nat × List Char) :=
  let t := s.drop (i + 3)
  let w := (t.takeWhile isWordChar).length
  let t2 := t.drop w
  let n := if t2.head? = some '\n' then 1 else 0
  let t3 := t2.drop n
  match findSub tripleTick t3 with
  | some k => some (i + 3 + w + n + k + 3, t3.take k)
  | none => none

/-- Find the leftmost match of the fenced-block regex
starting at position `i` or later; fuel-driven scan over start
positions.  Returns (start, end-exclusive, capture). -/
def firstFenceFrom (s : List Char) : Nat → Nat → Option (Nat × Nat × List Char)
  | 0, _ => none
  | fuel + 1, i =>
    if i < s.length then
      if tripleTick.isPrefixOf (s.drop i) then
        match matchFenceAt s i with
        | some (e, cap) => some (i, e, cap)
        | none => firstFenceFrom s fuel (i + 1)
      else firstFenceFrom s fuel (i + 1)
    else none

/-- Leftmost match of the fenced code-block regex on the whole text. -/
def firstFence (s : List Char) : Option (Nat × Nat × List Char) :=
  firstFenceFrom s (s.length + 1) 0

/-- Global removal of fenced code blocks (the `g`-flagged `replace` with
the empty string): repeatedly delete the leftmost match, continuing
after its end. -/
def removeFences : Nat → List Char → List Char
  | 0, s => s
  | fuel + 1, s =>
    match firstFence s with
    | none => s
    | some (i, e, _) => s.take i ++ removeFences fuel (s.drop e)

/-- The two suggestion-section keywords, lowercase. -/
def suggKeyword1 : List Char := "suggestions:".toList

/-- The long form of the suggestion-section keyword, lowercase. -/
def suggKeyword2 : List Char := "suggested next steps:".toList

/-- Case-insensitive keyword test at offset `q`: returns the length of
the matched keyword, trying `Suggestions:` before
`Suggested Next Steps:` as the regex alternation does. -/
def suggKeywordAt (s : List Char) (q : Nat) : Option Nat :=
  let t := (s.drop q).map Char.toLower
  if suggKeyword1.isPrefixOf t then some suggKeyword1.length
  else if suggKeyword2.isPrefixOf t then some suggKeyword2.length
  else none

/-- Leftmost match of `(?:^|\n)(?:Suggestions|Suggested Next Steps):` at
start position `p` or later (no multiline flag, so `^` applies at
offset 0 only).  Returns (match index, offset of the capture body). -/
def suggMatchFrom (s : List Char) : Nat → Nat → Option (Nat × Nat)
  | 0, _ => none
  | fuel + 1, p =>
    match (if p = 0 then suggKeywordAt s 0 else none) with
    | some klen => some (0, klen)
    | none =>
      if s.getD p 'x' = '\n' then
        match suggKeywordAt s (p + 1) with
        | some klen => some (p, p + 1 + klen)
        | none =>
          if p < s.length then suggMatchFrom s fuel (p + 1) else none
      else
        if p < s.length then suggMatchFrom s fuel (p + 1) else none

/-- Match of the suggestions-section regex on the whole text: the match
index and the captured section body (everything after the colon). -/
def suggMatch (s : List Char) : Option (Nat × List Char) :=
  (suggMatchFrom s (s.length + 1) 0).map (fun r => (r.1, s.drop r.2))

/-- The literal bullet string the source compares against: the bytes of
`U+2022` mis-decoded as three Latin-1 characters (the file contains the
mojibake sequence, not the bullet itself). -/
def bulletLiteral : List Char := ['â', '€', '¢']

/-- The suggestion-line pipeline of `handleSend`: split the section body
on newlines, trim each line, keep lines starting with `-` or with the
(mojibake) bullet literal, drop the first character, and trim. -/
def parseSuggestionLines (body : List Char) : List (List Char) :=
  (((body.splitOn '\n').map trimL).filter
      (fun l => l.head? = some '-' || bulletLiteral.isPrefixOf l)).map
    (fun l => trimL (l.drop 1))

/-- The result of parsing one raw assistant reply: the displayed content,
the optionally extracted code (JavaScript `undefined` is `none`; note the
source can also produce an empty-string code), and the suggestion chips
(`undefined` when the collected list is empty). -/
structure ParsedMsg where
  content : String
  code : Option String
  suggestions : Option (List String)
deriving Repr, DecidableEq

/-- The code-extraction stage of `handleSend`: when the text includes a
triple backtick and the fenced-block regex matches, the trimmed capture
becomes the code; the fences are stripped from the working text (and
the result trimmed) only when that code is nonempty. -/
def fenceStep (s0 : List Char) : List Char × Option String :=
  if includesTriple s0 then
    match firstFence s0 with
    | some r =>
      let c := trimL r.2.2
      if c.isEmpty then (s0, some (String.mk c))
      else (trimL (removeFences s0.length s0), some (String.mk c))
    | none => (s0, none)
  else (s0, none)

/-- The response-parsing portion of `handleSend`
(`AIAssistant.tsx`): fenced code-block extraction, global fence
removal (only when the extracted code trims nonempty), then
suggestion-section extraction and truncation. -/
def parseResponse (raw : String) : ParsedMsg :=
  let fenced := fenceStep raw.toList
  match suggMatch fenced.1 with
  | some pm =>
    let sugg := (parseSuggestionLines pm.2).map String.mk
    { content := String.mk (trimL (fenced.1.take pm.1))
      code := fenced.2
      suggestions := if sugg.isEmpty then none else some sugg }
  | none =>
    { content := String.mk fenced.1, code := fenced.2, suggestions := none }

/-! ## Application store (`src/store/appStore.ts`) -/

/-- Kinds of data source (`DataSource.type`). -/
inductive DSType
  | csv | excel | json | database | api
deriving Repr, DecidableEq

/-- Connection status of a data source (`DataSource.status`). -/
inductive DSStatus
  | connected | disconnected | error
deriving Repr, DecidableEq

/-- A connected input (`DataSource`); timestamps are modelled as naturals. -/
structure DataSource where
  id : String
  name : String
  type : DSType
  connectedAt : Nat
  status : DSStatus
deriving Repr, DecidableEq

/-- Kinds of query artifact (`QueryArtifact.type`). -/
inductive ArtifactType
  | chart | table | kpi | model
deriving Repr, DecidableEq

/-- A rendering of a query result (`QueryArtifact`); the `unknown`
payload is modelled as an uninterpreted string. -/
structure QueryArtifact where
  type : ArtifactType
  data : String
  title : Option String
deriving Repr, DecidableEq

/-- One unit of analytical work (`Query`). -/
structure Query where
  id : String
  number : Nat
  prompt : String
  code : String
  output : String
  artifacts : List QueryArtifact
  createdAt : Nat
  updatedAt : Nat
deriving Repr, DecidableEq

/-- Role of a chat-transcript turn. -/
inductive Role
  | user | assistant
deriving Repr, DecidableEq

/-- One turn in the assistant transcript (`AIMessage`). -/
structure AIMessage where
  id : String
  role : Role
  content : String
  code : Option String
  suggestions : Option (List String)
  timestamp : Nat
deriving Repr, DecidableEq

/-- The persisted application store state (the fields of `AppState`
relevant to the claims; UI toggles and the artifact modal carry over
unchanged through every operation modelled here). -/
structure AppStore where
  dataSources : List DataSource
  isConnected : Bool
  queries : List Query
  activeQueryId : Option String
  aiMessages : List AIMessage
  aiScrollPosition : Int
deriving Repr, DecidableEq

/-- `addDataSource`: fresh identifier and timestamp are explicit
parameters standing for `crypto.randomUUID()` and `new Date()`. -/
def addDataSource (freshId : String) (now : Nat) (name : String)
    (type : DSType) (status : DSStatus) (s : AppStore) : AppStore :=
  { s with
    dataSources := s.dataSources ++ [⟨freshId, name, type, now, status⟩]
    isConnected := true }

/-- `removeDataSource`. -/
def removeDataSource (id : String) (s : AppStore) : AppStore :=
  let newSources := s.dataSources.filter (fun d => d.id ≠ id)
  { s with dataSources := newSources, isConnected := newSources.length > 0 }

/-- `addQuery`: builds a new query numbered `queries.length + 1`, appends
it and makes it active; returns the created query and the new store. -/
def addQuery (freshId : String) (now : Nat) (prompt code : String)
    (s : AppStore) : Query × AppStore :=
  let newQuery : Query :=
    { id := freshId
      number := s.queries.length + 1
      prompt := prompt
      code := code
      output := ""
      artifacts := []
      createdAt := now
      updatedAt := now }
  (newQuery,
   { s with queries := s.queries ++ [newQuery], activeQueryId := some newQuery.id })

/-- `removeQuery`: filter out the matching query; clear the active id
when it pointed at the removed query. -/
def removeQuery (id : String) (s : AppStore) : AppStore :=
  { s with
    queries := s.queries.filter (fun q => q.id ≠ id)
    activeQueryId := if s.activeQueryId = some id then none else s.activeQueryId }

/-- `setActiveQuery`: stores the given id unconditionally. -/
def setActiveQuery (id : Option String) (s : AppStore) : AppStore :=
  { s with activeQueryId := id }

/-- `getActiveQuery`: the first query whose id equals the active id, or
none (`null`) when the active id is unset or matches nothing. -/
def getActiveQuery (s : AppStore) : Option Query :=
  match s.activeQueryId with
  | none => none
  | some a => s.queries.find? (fun q => q.id = a)

/-- The active-query integrity invariant of the spec: either no active
query, or the active id references an existing `Query.id`. -/
def activeIntegrity (s : AppStore) : Prop :=
  s.activeQueryId = none ∨ ∃ q ∈ s.queries, some q.id = s.activeQueryId

instance (s : AppStore) : Decidable (activeIntegrity s) := by
  unfold activeIntegrity; infer_instance

/-- Run a sequence of `addQuery` calls, each input supplying the fresh
id, timestamp, prompt and code of one call. -/
def runAddQueries : List (String × Nat × String × String) → AppStore → AppStore
  | [], s => s
  | i :: rest, s => runAddQueries rest (addQuery i.1 i.2.1 i.2.2.1 i.2.2.2 s).2

/-! ## Multi-file upload (`uploadFilesToBackend` in `UploadZone`) -/

/-- Extension-based type inference of `uploadFilesToBackend`:
`name.split('.').pop()?.toLowerCase()`, then csv / json / excel. -/
def fileTypeOf (name : String) : DSType :=
  let ext := ((name.toList.splitOn '.').getLastD []).map Char.toLower
  if ext = "csv".toList then .csv
  else if ext = "json".toList then .json
  else .excel

/-- The upload loop of `uploadFilesToBackend`: one file at a time in
order; a successful upload appends a `connected` data source, a failed
one appends an `error` data source; the loop never aborts.  `ok` is the
oracle deciding whether `fileService.uploadFile` succeeds, `idOf`
supplies the fresh identifier of the `i`-th appended source, and the
returned list records every file name actually passed to the upload
service, in call order. -/
def uploadFilesToBackend (ok : String → Bool) (idOf : Nat → String) (now : Nat) :
    List String → Nat → AppStore → AppStore × List String
  | [], _, s => (s, [])
  | f :: rest, i, s =>
    let s' :=
      if ok f then addDataSource (idOf i) now f (fileTypeOf f) .connected s
      else addDataSource (idOf i) now f (fileTypeOf f) .error s
    let r := uploadFilesToBackend ok idOf now rest (i + 1) s'
    (r.1, f :: r.2)

/-! ## Notebook controller (`DatabricksNotebook`) -/

/-- Execution status of a notebook cell. -/
inductive CellStatus
  | idle | running | success | error
deriving Repr, DecidableEq

/-- Kind of a notebook cell. -/
inductive CellType
  | code | markdown
deriving Repr, DecidableEq

/-- A notebook cell (`Cell` in the component). -/
structure Cell where
  id : String
  code : String
  output : Option String
  status : CellStatus
  type : CellType
deriving Repr, DecidableEq

/-- Result of `databricksService.executeCode`: a transport failure
(the promise rejecting), or a response with `status`, optional
`output` and optional `error` fields. -/
inductive ExecResult
  | fail
  | res (status : String) (output : Option String) (error : Option String)
deriving Repr, DecidableEq

/-- JavaScript `a || b` on optional strings: the empty string is falsy. -/
def jsOrStr (a b : Option String) : Option String :=
  match a with
  | some s => if s = "" then b else some s
  | none => b

/-- `setCells(prev => prev.map(c => c.id === id ? f(c) : c))`. -/
def updateCell (id : String) (f : Cell → Cell) (cs : List Cell) : List Cell :=
  cs.map (fun c => if c.id = id then f c else c)

/-- The pre-loop reset of `runAll`: every cell not currently running is
set back to idle (outputs are kept). -/
def resetCell (c : Cell) : Cell :=
  if c.status = .running then c else { c with status := .idle }

/-- Loop body of `runAll`: iterate the snapshot of the cell list taken
when the run started, updating the live list by id.  A markdown cell is
marked running then success; a code cell is executed through the oracle
`ex`, its status mirroring the response status and its output set to
`result.error || result.output`; on an error response or a transport
failure the loop breaks. -/
def runAllLoop (ex : String → ExecResult) : List Cell → List Cell → List Cell
  | [], st => st
  | c :: snap, st =>
    if c.type = .markdown then
      runAllLoop ex snap
        (updateCell c.id (fun x => { x with status := .success })
          (updateCell c.id (fun x => { x with status := .running }) st))
    else
      match ex c.code with
      | .fail =>
        updateCell c.id
          (fun x => { x with status := .error, output := some "System Error during Run All" })
          (updateCell c.id (fun x => { x with status := .running }) st)
      | .res status output err =>
        if status = "error" then
          updateCell c.id
            (fun x => { x with status := .error, output := jsOrStr err output })
            (updateCell c.id (fun x => { x with status := .running }) st)
        else
          runAllLoop ex snap
            (updateCell c.id
              (fun x => { x with status := .success, output := jsOrStr err output })
              (updateCell c.id (fun x => { x with status := .running }) st))

/-- `runAll`: requires a selected cluster (otherwise only a toast fires
and the cells are untouched); resets all non-running statuses to idle,
then runs the loop over the snapshot. -/
def runAll (ex : String → ExecResult) (clusterId : Option String)
    (cells : List Cell) : List Cell :=
  match clusterId with
  | none => cells
  | some _ => runAllLoop ex cells (cells.map resetCell)

/-- Swap the elements at positions `i` and `i + 1`, when both exist. -/
def swapAdj : List Cell → Nat → List Cell
  | a :: b :: t, 0 => b :: a :: t
  | l, 0 => l
  | [], _ + 1 => []
  | a :: t, i + 1 => a :: swapAdj t i

/-- `onMoveUp` for the cell rendered at `index`: no-op at index 0, else
swap with the predecessor. -/
def moveUp (index : Nat) (cells : List Cell) : List Cell :=
  if index = 0 then cells else swapAdj cells (index - 1)

/-- `onMoveDown` for the cell rendered at `index`: no-op at the last
index, else swap with the successor. -/
def moveDown (index : Nat) (cells : List Cell) : List Cell :=
  if index = cells.length - 1 then cells else swapAdj cells index

/-! ## Chat-panel scroll model (`AIAssistant.tsx`) -/

/-- The near-bottom pixel threshold of `handleScroll`. -/
def scrollThreshold : Int := 250

/-- The chat panel's scroll-relevant state: the transcript, the
container's scroll metrics (pixels, as integers) and the
`shouldAutoScroll` flag. -/
structure ChatPanel where
  messages : List AIMessage
  scrollTop : Int
  scrollHeight : Int
  clientHeight : Int
  shouldAutoScroll : Bool
  savedScrollPosition : Int
deriving Repr, DecidableEq

/-- How far above the bottom the viewport currently sits:
`scrollHeight - scrollTop - clientHeight`. -/
def offsetAboveBottom (p : ChatPanel) : Int :=
  p.scrollHeight - p.scrollTop - p.clientHeight

/-- The scroll listener `handleScroll`: saves the position and recomputes
`shouldAutoScroll` as "offset above bottom is below the threshold"
(`Math.ceil` is the identity on the integer model). -/
def handleScroll (p : ChatPanel) : ChatPanel :=
  { p with
    savedScrollPosition := p.scrollTop
    shouldAutoScroll := offsetAboveBottom p < scrollThreshold }

/-- Appending one message of rendered height `h` to the transcript and
running the auto-scroll effect: the content grows, then the effect
scrolls to the bottom exactly when `shouldAutoScroll` is set. -/
def appendMessage (m : AIMessage) (h : Int) (p : ChatPanel) : ChatPanel :=
  let grown := { p with
    messages := p.messages ++ [m]
    scrollHeight := p.scrollHeight + h }
  if grown.shouldAutoScroll then
    { grown with scrollTop := grown.scrollHeight - grown.clientHeight }
  else grown

/-- The send path of `handleSend`: the user message is appended after
`setShouldAutoScroll(true)` forces auto-scroll back on, so the effect
always scrolls. -/
def sendAppendsUserMessage (m : AIMessage) (h : Int) (p : ChatPanel) : ChatPanel :=
  appendMessage m h { p with shouldAutoScroll := true }

/-- The terminal state a cell reaches when the `runAll` loop processes
it without breaking afterwards: markdown renders to success; a code
cell mirrors the execution result. -/
def finalizeCell (ex : String → ExecResult) (c : Cell) : Cell :=
  if c.type = .markdown then { c with status := .success }
  else
    match ex c.code with
    | .fail => { c with status := .error, output := some "System Error during Run All" }
    | .res s o e =>
      { c with status := if s = "error" then .error else .success, output := jsOrStr e o }

/-! ## Concrete instances used by witnesses and counterexamples -/

/-- A code cell whose execution will fail. -/
def cellA : Cell := ⟨"a", "raise ValueError", none, .idle, .code⟩

/-- A code cell holding a previous successful run. -/
def cellB : Cell := ⟨"b", "print(2)", some "old output", .success, .code⟩

/-- A markdown cell. -/
def cellM : Cell := ⟨"m", "## notes", none, .idle, .markdown⟩

/-- An execution oracle whose every call reports an error response. -/
def exErr : String → ExecResult := fun _ => .res "error" none (some "boom")

/-- A store holding nothing. -/
def storeEmpty : AppStore := ⟨[], false, [], none, [], 0⟩

/-- A sample query. -/
def queryA : Query := ⟨"qa", 1, "prompt A", "code A", "", [], 0, 0⟩

/-- A second sample query. -/
def queryB : Query := ⟨"qb", 2, "prompt B", "code B", "", [], 0, 0⟩

/-- A store holding two queries with the first one active. -/
def storeAB : AppStore := ⟨[], false, [queryA, queryB], some "qa", [], 0⟩

/-- A transcript message used when appending in the scroll model. -/
def msgHello : AIMessage := ⟨"m1", .assistant, "hello", none, none, 5⟩

/-- A chat panel scrolled far away from the bottom. -/
def panelFar : ChatPanel := ⟨[], 0, 1000, 100, true, 0⟩

/-! ## Theorems -/

/-- Rebuilding a string from its character list is the identity. -/
theorem mk_toList (s : String) : String.mk s.toList = s := rfl

/-- C3: on the raw response
`"Here is code:\n```python\nprint(1)\n```\nSuggestions:\n- try X\n- try Y"`
the parser yields content `"Here is code:"`, code `"print(1)"` and
suggestions `["try X", "try Y"]`. -/
theorem parser_extraction_example :
    parseResponse "Here is code:\n```python\nprint(1)\n```\nSuggestions:\n- try X\n- try Y" =
      { content := "Here is code:"
        code := some "print(1)"
        suggestions := some ["try X", "try Y"] } := by
  decide

/-- C4 counterexample: the input `"  hi  "` contains no fence and no
suggestions marker, yet the parser returns it untrimmed, so the content
is not the trimmed input text as the claim states. -/
theorem parser_no_marker_not_trimmed :
    includesTriple "  hi  ".toList = false
    ∧ suggMatch "  hi  ".toList = none
    ∧ (parseResponse "  hi  ").content ≠ String.mk (trimL "  hi  ".toList) := by
  refine ⟨by decide, by decide, by decide⟩

/-- C4 (amended): on any raw text with no triple-backtick fence and no
suggestions-section match, the parser returns the input text unchanged
(not trimmed) as content, with code and suggestions absent. -/
theorem parser_identity_no_marker (raw : String)
    (hfence : includesTriple raw.toList = false)
    (hsugg : suggMatch raw.toList = none) :
    parseResponse raw = { content := raw, code := none, suggestions := none } := by
  unfold parseResponse fenceStep
  rw [hfence]
  simp only [Bool.false_eq_true, if_false]
  rw [hsugg]
  simp [mk_toList]

/-- Witness for the amended C4 at the input `"plain reply"`. -/
theorem parser_identity_no_marker_witness :
    parseResponse "plain reply" =
      { content := "plain reply", code := none, suggestions := none } :=
  parser_identity_no_marker "plain reply" (by decide) (by decide)

/-- C5 counterexample: the body line `"• try Z"` begins with the bullet
character `•`, but the parser collects no suggestion from it (the source
compares against the mojibake sequence `â€¢`, not the bullet), so the
suggestions are not `["try Z"]` as the claim requires. -/
theorem parser_bullet_not_collected :
    (parseResponse "Suggestions:\n• try Z").suggestions ≠ some ["try Z"]
    ∧ (parseResponse "Suggestions:\n• try Z").suggestions = none := by
  refine ⟨by decide, by decide⟩

/-- C5 (amended): whenever the working text left by the fence stage
matches the suggestions-section regex, the parser truncates the content
to the trimmed text before the match and collects as suggestions exactly
the trimmed body lines that start with `-` or with the literal
three-character sequence `â€¢`, stripping only the first character and
trimming (absent when no line qualifies). -/
theorem parser_suggestions_section (raw : String) (p : Nat) (body : List Char)
    (hmatch : suggMatch (fenceStep raw.toList).1 = some (p, body)) :
    parseResponse raw =
      { content := String.mk (trimL ((fenceStep raw.toList).1.take p))
        code := (fenceStep raw.toList).2
        suggestions :=
          if (parseSuggestionLines body).isEmpty then none
          else some ((parseSuggestionLines body).map String.mk) } := by
  simp only [parseResponse, hmatch]
  simp [List.isEmpty_iff, List.map_eq_nil_iff]

/-- Witness for the amended C5 at a concrete two-bullet input. -/
theorem parser_suggestions_section_witness :
    parseResponse "Intro text\nSuggestions:\n- first\nâ€¢ second" =
      { content := "Intro text"
        code := none
        suggestions := some ["first", "€¢ second"] } := by
  have h := parser_suggestions_section "Intro text\nSuggestions:\n- first\nâ€¢ second"
    10 "\n- first\nâ€¢ second".toList (by decide)
  rw [h]
  decide

/-- C2 counterexample: from a store satisfying the active-query
integrity invariant, `setActiveQuery` with an identifier matching no
query leaves a dangling active id, so the invariant is not preserved for
every argument. -/
theorem setActiveQuery_breaks_integrity :
    activeIntegrity storeEmpty
    ∧ ¬ activeIntegrity (setActiveQuery (some "ghost") storeEmpty) := by
  refine ⟨by decide, by decide⟩

/-- C2 (amended): starting from a store satisfying the active-query
integrity invariant, `removeQuery` preserves it for every argument, and
`setActiveQuery` preserves it when given `none` or the id of a query
present in the store (an id matching no query breaks it). -/
theorem store_integrity_preserved (s : AppStore) (hs : activeIntegrity s) :
    (∀ id, activeIntegrity (removeQuery id s))
    ∧ activeIntegrity (setActiveQuery none s)
    ∧ ∀ q ∈ s.queries, activeIntegrity (setActiveQuery (some q.id) s) := by
  refine ⟨?_, Or.inl rfl, ?_⟩
  · intro id
    rcases hs with h | ⟨q, hq, hqa⟩
    · left
      simp [removeQuery, h]
    · by_cases hid : s.activeQueryId = some id
      · left
        simp [removeQuery, hid]
      · right
        refine ⟨q, ?_, ?_⟩
        · simp only [removeQuery, List.mem_filter]
          refine ⟨hq, ?_⟩
          have hne : q.id ≠ id := by
            intro he
            exact hid (by rw [← hqa, he])
          simp [hne]
        · simp [removeQuery, hid, hqa]
  · intro q hq
    exact Or.inr ⟨q, hq, rfl⟩

/-- Witness for the amended C2 at a concrete two-query store. -/
theorem store_integrity_preserved_witness :
    activeIntegrity (removeQuery "qb" storeAB)
    ∧ activeIntegrity (setActiveQuery (some "qb") storeAB) :=
  ⟨(store_integrity_preserved storeAB (by decide)).1 "qb",
   (store_integrity_preserved storeAB (by decide)).2.2 queryB (by decide)⟩

/-- Numbers assigned by a run of `addQuery` calls extend the existing
numbers by the range starting one past the current count. -/
theorem runAddQueries_numbers (inputs : List (String × Nat × String × String)) :
    ∀ s : AppStore,
      (runAddQueries inputs s).queries.map Query.number
        = s.queries.map Query.number ++ List.range' (s.queries.length + 1) inputs.length := by
  induction inputs with
  | nil => intro s; simp [runAddQueries]
  | cons i rest ih =>
    intro s
    rw [runAddQueries, ih]
    simp [addQuery, List.range'_succ, List.range']

/-- C6: `addQuery` creates a query numbered one past the current count,
with empty output and no artifacts, appends it, makes it active and
returns it; consequently any sequence of `N` calls starting from a store
holding no queries assigns exactly the numbers `1..N` in creation
order. -/
theorem addQuery_numbering :
    (∀ (freshId : String) (now : Nat) (prompt code : String) (s : AppStore),
      (addQuery freshId now prompt code s).1.number = s.queries.length + 1
      ∧ (addQuery freshId now prompt code s).1.output = ""
      ∧ (addQuery freshId now prompt code s).1.artifacts = []
      ∧ (addQuery freshId now prompt code s).2.activeQueryId
          = some (addQuery freshId now prompt code s).1.id
      ∧ (addQuery freshId now prompt code s).2.queries
          = s.queries ++ [(addQuery freshId now prompt code s).1])
    ∧ ∀ (inputs : List (String × Nat × String × String))
        (ds : List DataSource) (conn : Bool) (act : Option String)
        (msgs : List AIMessage) (sp : Int),
        (runAddQueries inputs ⟨ds, conn, [], act, msgs, sp⟩).queries.map Query.number
          = List.range' 1 inputs.length := by
  refine ⟨fun freshId now prompt code s => ⟨rfl, rfl, rfl, rfl, rfl⟩, ?_⟩
  intro inputs ds conn act msgs sp
  rw [runAddQueries_numbers]
  rfl

/-- C7: `removeQuery id` deletes exactly the queries matching `id`; when
`id` was the active query the active query becomes none, and otherwise
the active identifier is unchanged. -/
theorem removeQuery_active (id : String) (s : AppStore) :
    (removeQuery id s).queries = s.queries.filter (fun q => q.id ≠ id)
    ∧ (∀ q ∈ (removeQuery id s).queries, q.id ≠ id)
    ∧ (s.activeQueryId = some id → getActiveQuery (removeQuery id s) = none)
    ∧ (s.activeQueryId ≠ some id → (removeQuery id s).activeQueryId = s.activeQueryId) := by
  refine ⟨rfl, ?_, ?_, ?_⟩
  · intro q hq
    have := (List.mem_filter.mp hq).2
    simpa using this
  · intro h
    simp [removeQuery, getActiveQuery, h]
  · intro h
    simp [removeQuery, h]

/-- Witness for C7: removing the active query clears the active query;
removing a non-active one keeps the active id. -/
theorem removeQuery_active_witness :
    getActiveQuery (removeQuery "qa" storeAB) = none
    ∧ (removeQuery "qb" storeAB).activeQueryId = some "qa" :=
  ⟨(removeQuery_active "qa" storeAB).2.2.1 rfl,
   (removeQuery_active "qb" storeAB).2.2.2 (by decide)⟩

/-- Every file of a batch is passed to the upload service, in order,
regardless of per-file outcomes. -/
theorem uploadFiles_attempts_all (ok : String → Bool) (idOf : Nat → String)
    (now : Nat) (files : List String) :
    ∀ (i : Nat) (s : AppStore),
      (uploadFilesToBackend ok idOf now files i s).2 = files := by
  induction files with
  | nil => intro i s; rfl
  | cons f rest ih =>
    intro i s
    simp only [uploadFilesToBackend]
    split <;> simp [ih]

/-- C8: a multi-file batch is processed one file at a time in order and
a per-file failure does not stop it: with `F1` succeeding, `F2` failing
and `F3` succeeding, all three uploads are attempted in order and all
three produce a data-source entry, `F2`'s with status error and the
others with status connected. -/
theorem upload_batch_resilience (ok : String → Bool) (idOf : Nat → String)
    (now : Nat) (f1 f2 f3 : String) (s : AppStore)
    (h1 : ok f1 = true) (h2 : ok f2 = false) (h3 : ok f3 = true) :
    (uploadFilesToBackend ok idOf now [f1, f2, f3] 0 s).2 = [f1, f2, f3]
    ∧ (uploadFilesToBackend ok idOf now [f1, f2, f3] 0 s).1.dataSources
        = s.dataSources ++
          [⟨idOf 0, f1, fileTypeOf f1, now, .connected⟩,
           ⟨idOf 1, f2, fileTypeOf f2, now, .error⟩,
           ⟨idOf 2, f3, fileTypeOf f3, now, .connected⟩] := by
  refine ⟨uploadFiles_attempts_all ok idOf now [f1, f2, f3] 0 s, ?_⟩
  simp [uploadFilesToBackend, addDataSource, h1, h2, h3]

/-- Witness for C8 at a concrete three-file batch. -/
theorem upload_batch_resilience_witness :
    (uploadFilesToBackend (fun f => f ≠ "f2.csv") (fun i => toString i) 7
        ["f1.csv", "f2.csv", "f3.json"] 0 storeEmpty).1.dataSources
      = [⟨"0", "f1.csv", .csv, 7, .connected⟩,
         ⟨"1", "f2.csv", .csv, 7, .error⟩,
         ⟨"2", "f3.json", .json, 7, .connected⟩] := by
  have h := upload_batch_resilience (fun f => f ≠ "f2.csv") (fun i => toString i) 7
    "f1.csv" "f2.csv" "f3.json" storeEmpty (by decide) (by decide) (by decide)
  rw [h.2]
  decide

/-- C9 counterexample: with the viewport scrolled 900 pixels above the
bottom (well past the 250-pixel threshold) and the flag synced by the
scroll listener, sending a message still changes the scroll offset,
because `handleSend` forces `setShouldAutoScroll(true)` before the
append. -/
theorem send_scroll_not_suppressed :
    scrollThreshold < offsetAboveBottom (handleScroll panelFar)
    ∧ (sendAppendsUserMessage msgHello 50 (handleScroll panelFar)).scrollTop
        ≠ (handleScroll panelFar).scrollTop := by
  refine ⟨by decide, by decide⟩

/-- C9 (amended): after the scroll listener has synced the flag,
appending an arriving message leaves the offset unchanged when the
viewport sits at least the threshold above the bottom and scrolls to the
new bottom when within it; a message appended by the send path scrolls
to the new bottom unconditionally. -/
theorem scroll_threshold_behavior (p : ChatPanel) (m : AIMessage) (h : Int) :
    (scrollThreshold ≤ offsetAboveBottom p →
      (appendMessage m h (handleScroll p)).scrollTop = p.scrollTop)
    ∧ (offsetAboveBottom p < scrollThreshold →
      (appendMessage m h (handleScroll p)).scrollTop
        = p.scrollHeight + h - p.clientHeight)
    ∧ (sendAppendsUserMessage m h p).scrollTop
        = p.scrollHeight + h - p.clientHeight := by
  refine ⟨?_, ?_, ?_⟩
  · intro hfar
    have hnot : ¬ (offsetAboveBottom p < scrollThreshold) := not_lt.mpr hfar
    simp [appendMessage, handleScroll, hnot]
  · intro hnear
    simp [appendMessage, handleScroll, hnear]
  · simp [sendAppendsUserMessage, appendMessage]

/-- Witness for the amended C9: far above the bottom, an arriving
message leaves the offset unchanged. -/
theorem scroll_threshold_behavior_witness :
    (appendMessage msgHello 50 (handleScroll panelFar)).scrollTop = panelFar.scrollTop :=
  (scroll_threshold_behavior panelFar msgHello 50).1 (by decide)

/-- Swapping the same adjacent pair twice is the identity. -/
theorem swapAdj_swapAdj (l : List Cell) : ∀ i, swapAdj (swapAdj l i) i = l := by
  induction l with
  | nil => intro i; cases i <;> rfl
  | cons a t ih =>
    intro i
    cases i with
    | zero => cases t with
      | nil => rfl
      | cons b t' => rfl
    | succ n =>
      simp only [swapAdj]
      rw [ih n]

/-- An adjacent swap permutes the list, changing no element. -/
theorem swapAdj_perm (l : List Cell) : ∀ i, (swapAdj l i).Perm l := by
  induction l with
  | nil => intro i; cases i <;> exact List.Perm.refl _
  | cons a t ih =>
    intro i
    cases i with
    | zero => cases t with
      | nil => exact List.Perm.refl _
      | cons b t' => exact List.Perm.swap a b t'
    | succ n =>
      simp only [swapAdj]
      exact (ih n).cons a

/-- C10: for a cell not at index 0, `moveUp` then `moveDown` on that
cell restores the original order exactly, and each operation merely
permutes the cells, leaving every cell's fields untouched. -/
theorem moveUp_moveDown_roundtrip (cells : List Cell) (i : Nat)
    (h0 : 0 < i) (hlen : i < cells.length) :
    moveDown (i - 1) (moveUp i cells) = cells
    ∧ (moveUp i cells).Perm cells
    ∧ (moveDown (i - 1) (moveUp i cells)).Perm cells := by
  have hne : i ≠ 0 := Nat.pos_iff_ne_zero.mp h0
  have hup : moveUp i cells = swapAdj cells (i - 1) := by simp [moveUp, hne]
  have hswlen : (swapAdj cells (i - 1)).length = cells.length :=
    (swapAdj_perm cells (i - 1)).length_eq
  have hcond : ¬ (i - 1 = (swapAdj cells (i - 1)).length - 1) := by
    rw [hswlen]; omega
  have hround : moveDown (i - 1) (moveUp i cells) = cells := by
    rw [hup]
    unfold moveDown
    rw [if_neg hcond]
    exact swapAdj_swapAdj cells (i - 1)
  refine ⟨hround, ?_, ?_⟩
  · rw [hup]; exact swapAdj_perm cells (i - 1)
  · rw [hround]

/-- Witness for C10 on a concrete three-cell notebook, moving the last
cell up and back down. -/
theorem moveUp_moveDown_roundtrip_witness :
    moveDown 1 (moveUp 2 [cellA, cellB, cellM]) = [cellA, cellB, cellM] :=
  (moveUp_moveDown_roundtrip [cellA, cellB, cellM] 2 (by decide) (by decide)).1

/-- The pre-loop reset keeps a cell's identifier. -/
theorem resetCell_id (c : Cell) : (resetCell c).id = c.id := by
  unfold resetCell; split <;> rfl

/-- The pre-loop reset keeps a cell's type. -/
theorem resetCell_type (c : Cell) : (resetCell c).type = c.type := by
  unfold resetCell; split <;> rfl

/-- The pre-loop reset keeps a cell's code. -/
theorem resetCell_code (c : Cell) : (resetCell c).code = c.code := by
  unfold resetCell; split <;> rfl

/-- Resetting the cell list keeps the identifier sequence. -/
theorem map_id_map_resetCell (l : List Cell) :
    (l.map resetCell).map Cell.id = l.map Cell.id := by
  rw [List.map_map]
  exact List.map_congr_left (fun c _ => resetCell_id c)

/-- Overwriting both status and output of a reset cell equals
overwriting them on the original cell. -/
theorem resetCell_overwrite (c : Cell) (st : CellStatus) (op : Option String) :
    ({ resetCell c with status := st, output := op } : Cell)
      = { c with status := st, output := op } := by
  cases c
  unfold resetCell
  split <;> rfl

/-- Overwriting the status of a reset cell equals overwriting it on the
original cell. -/
theorem resetCell_set_status (c : Cell) (st : CellStatus) :
    ({ resetCell c with status := st } : Cell) = { c with status := st } := by
  cases c
  unfold resetCell
  split <;> rfl

/-- `updateCell` distributes over list concatenation. -/
theorem updateCell_append (id : String) (f : Cell → Cell) (l1 l2 : List Cell) :
    updateCell id f (l1 ++ l2) = updateCell id f l1 ++ updateCell id f l2 := by
  simp [updateCell]

/-- `updateCell` is the identity on a list holding no cell with the
targeted identifier. -/
theorem updateCell_of_not_mem (id : String) (f : Cell → Cell) (l : List Cell)
    (h : id ∉ l.map Cell.id) : updateCell id f l = l := by
  have hall : ∀ c ∈ l, (if c.id = id then f c else c) = c := by
    intro c hc
    rw [if_neg]
    intro he
    exact h (he ▸ List.mem_map_of_mem Cell.id hc)
  calc updateCell id f l = l.map (fun c => c) := List.map_congr_left hall
  _ = l := by simp

/-- `updateCell` on a list headed by the targeted cell, whose identifier
occurs nowhere in the tail, rewrites exactly the head. -/
theorem updateCell_cons_self (id : String) (f : Cell → Cell) (c : Cell) (l : List Cell)
    (hc : c.id = id) (h : id ∉ l.map Cell.id) :
    updateCell id f (c :: l) = f c :: l := by
  show (if c.id = id then f c else c) :: updateCell id f l = f c :: l
  rw [if_pos hc, updateCell_of_not_mem id f l h]

/-- Loop step on a markdown snapshot cell. -/
theorem runAllLoop_cons_markdown (ex : String → ExecResult) (c : Cell)
    (snap st : List Cell) (hmd : c.type = .markdown) :
    runAllLoop ex (c :: snap) st
      = runAllLoop ex snap
          (updateCell c.id (fun x => { x with status := .success })
            (updateCell c.id (fun x => { x with status := .running }) st)) := by
  simp [runAllLoop, hmd]

/-- Loop step on a code snapshot cell whose execution reports an error
response: the loop writes the error and breaks. -/
theorem runAllLoop_cons_code_error (ex : String → ExecResult) (c : Cell)
    (snap st : List Cell) (o e : Option String)
    (hmd : ¬ c.type = .markdown) (hex : ex c.code = .res "error" o e) :
    runAllLoop ex (c :: snap) st
      = updateCell c.id (fun x => { x with status := .error, output := jsOrStr e o })
          (updateCell c.id (fun x => { x with status := .running }) st) := by
  simp [runAllLoop, hmd, hex]

/-- Loop step on a code snapshot cell whose execution responds with a
non-error status: the loop writes the success and continues. -/
theorem runAllLoop_cons_code_ok (ex : String → ExecResult) (c : Cell)
    (snap st : List Cell) (s : String) (o e : Option String)
    (hmd : ¬ c.type = .markdown) (hex : ex c.code = .res s o e) (hs : s ≠ "error") :
    runAllLoop ex (c :: snap) st
      = runAllLoop ex snap
          (updateCell c.id (fun x => { x with status := .success, output := jsOrStr e o })
            (updateCell c.id (fun x => { x with status := .running }) st)) := by
  simp [runAllLoop, hmd, hex, hs]

/-- Cells whose identifiers are untouched by every update the loop
performs pass through it unchanged: a processed prefix frames the rest
of the state. -/
theorem runAllLoop_frame (ex : String → ExecResult) (snap : List Cell) :
    ∀ (done st : List Cell), (∀ c ∈ snap, c.id ∉ done.map Cell.id) →
      runAllLoop ex snap (done ++ st) = done ++ runAllLoop ex snap st := by
  induction snap with
  | nil => intro done st h; rfl
  | cons c t ih =>
    intro done st h
    have hc : c.id ∉ done.map Cell.id := h c (List.mem_cons_self c t)
    have ht : ∀ x ∈ t, x.id ∉ done.map Cell.id := fun x hx => h x (List.mem_cons_of_mem c hx)
    by_cases hmd : c.type = .markdown
    · rw [runAllLoop_cons_markdown ex c t _ hmd, runAllLoop_cons_markdown ex c t _ hmd,
        updateCell_append, updateCell_of_not_mem _ _ done hc,
        updateCell_append, updateCell_of_not_mem _ _ done hc, ih done _ ht]
    · cases hex : ex c.code with
      | fail =>
        show runAllLoop ex (c :: t) (done ++ st) = done ++ runAllLoop ex (c :: t) st
        simp only [runAllLoop, hmd, if_neg, hex, Bool.false_eq_true, if_false]
        rw [updateCell_append, updateCell_of_not_mem _ _ done hc,
          updateCell_append, updateCell_of_not_mem _ _ done hc]
      | res s o e =>
        by_cases hs : s = "error"
        · subst hs
          rw [runAllLoop_cons_code_error ex c t _ o e hmd hex,
            runAllLoop_cons_code_error ex c t _ o e hmd hex,
            updateCell_append, updateCell_of_not_mem _ _ done hc,
            updateCell_append, updateCell_of_not_mem _ _ done hc]
        · rw [runAllLoop_cons_code_ok ex c t _ s o e hmd hex hs,
            runAllLoop_cons_code_ok ex c t _ s o e hmd hex hs,
            updateCell_append, updateCell_of_not_mem _ _ done hc,
            updateCell_append, updateCell_of_not_mem _ _ done hc, ih done _ ht]

/-- `finalizeCell` keeps a cell's identifier. -/
theorem finalizeCell_id (ex : String → ExecResult) (c : Cell) :
    (finalizeCell ex c).id = c.id := by
  unfold finalizeCell
  split
  · rfl
  · split <;> rfl

/-- A markdown cell processed by the loop (reset, marked running, then
marked success) ends in its `finalizeCell` form. -/
theorem head_markdown_final (ex : String → ExecResult) (m : Cell)
    (hmd : m.type = .markdown) :
    ({ ({ resetCell m with status := CellStatus.running } : Cell) with
        status := CellStatus.success } : Cell) = finalizeCell ex m := by
  show ({ resetCell m with status := CellStatus.success } : Cell) = finalizeCell ex m
  rw [resetCell_set_status]
  simp [finalizeCell, hmd]

/-- A code cell whose execution responds without error ends in its
`finalizeCell` form. -/
theorem head_code_final (ex : String → ExecResult) (m : Cell) (s : String)
    (o e : Option String) (hmd : ¬ m.type = .markdown)
    (hex : ex m.code = .res s o e) (hs : s ≠ "error") :
    ({ ({ resetCell m with status := CellStatus.running } : Cell) with
        status := CellStatus.success, output := jsOrStr e o } : Cell)
      = finalizeCell ex m := by
  show ({ resetCell m with status := CellStatus.success, output := jsOrStr e o } : Cell)
    = finalizeCell ex m
  rw [resetCell_overwrite]
  simp [finalizeCell, hmd, hex, hs]

/-- A code cell whose execution responds with an error ends with status
error and the reported output. -/
theorem head_code_err (a : Cell) (o e : Option String) :
    ({ ({ resetCell a with status := CellStatus.running } : Cell) with
        status := CellStatus.error, output := jsOrStr e o } : Cell)
      = { a with status := CellStatus.error, output := jsOrStr e o } := by
  show ({ resetCell a with status := CellStatus.error, output := jsOrStr e o } : Cell) = _
  rw [resetCell_overwrite]

/-- C1 counterexample: for cells `[cellA (code, fails), cellB (code)]`
with a cluster selected, `runAll` leaves `cellB` at idle — the status
assigned by the initial reset — not at its pre-run value `success`, so a
subsequent cell's status is not left unchanged as the claim states. -/
theorem runAll_resets_subsequent :
    cellB.status = CellStatus.success
    ∧ ((runAll exErr (some "c") [cellA, cellB]).getD 1 cellA).status ≠ cellB.status := by
  refine ⟨rfl, by decide⟩

/-- C1 (amended): with a cluster selected, when the run reaches the
first code cell whose execution resolves to an error response (after any
prefix of markdown cells and code cells resolving without error),
iteration stops immediately: that cell gets status error and the
reported output, and every subsequent cell is never executed and keeps
the status assigned by the initial reset — idle, or running if it was
running when `runAll` began — not its pre-run status. -/
theorem runAll_failfast (ex : String → ExecResult) (cl : String) (pre : List Cell) :
    ∀ (a : Cell) (rest : List Cell),
      ((pre ++ a :: rest).map Cell.id).Nodup →
      (∀ c ∈ pre, c.type = CellType.markdown
        ∨ ∃ s o e, ex c.code = ExecResult.res s o e ∧ s ≠ "error") →
      a.type = CellType.code →
      ∀ (o e : Option String), ex a.code = ExecResult.res "error" o e →
      runAll ex (some cl) (pre ++ a :: rest)
        = pre.map (finalizeCell ex)
          ++ ({ a with status := CellStatus.error, output := jsOrStr e o } : Cell)
            :: rest.map resetCell := by
  induction pre with
  | nil =>
    intro a rest hids hpre hA o e hAerr
    have hA_not : a.id ∉ rest.map Cell.id := by
      rw [List.nil_append, List.map_cons, List.nodup_cons] at hids
      exact hids.1
    have hA_not' : a.id ∉ (rest.map resetCell).map Cell.id := by
      rw [map_id_map_resetCell]; exact hA_not
    have hmd : ¬ a.type = CellType.markdown := by
      rw [hA]; intro hcon; cases hcon
    simp only [runAll, List.nil_append, List.map_cons, List.map_nil]
    rw [runAllLoop_cons_code_error ex a rest _ o e hmd hAerr]
    rw [updateCell_cons_self a.id _ (resetCell a) _ (resetCell_id a) hA_not']
    rw [updateCell_cons_self a.id _ _ _ (by exact resetCell_id a) hA_not']
    rw [head_code_err a o e]
  | cons m pre' ih =>
    intro a rest hids hpre hA o e hAerr
    have hm := hpre m (List.mem_cons_self m pre')
    have hpre' : ∀ c ∈ pre', c.type = CellType.markdown
        ∨ ∃ s o e, ex c.code = ExecResult.res s o e ∧ s ≠ "error" :=
      fun c hc => hpre c (List.mem_cons_of_mem m hc)
    have hids2 : m.id ∉ (pre' ++ a :: rest).map Cell.id
        ∧ ((pre' ++ a :: rest).map Cell.id).Nodup := by
      rw [List.cons_append, List.map_cons, List.nodup_cons] at hids
      exact hids
    have hmnot' : m.id ∉ ((pre' ++ a :: rest).map resetCell).map Cell.id := by
      rw [map_id_map_resetCell]; exact hids2.1
    have hcond : ∀ c ∈ pre' ++ a :: rest, c.id ∉ ([finalizeCell ex m]).map Cell.id := by
      intro c hc
      simp only [List.map_cons, List.map_nil, List.mem_singleton, finalizeCell_id]
      intro he
      exact hids2.1 (he ▸ List.mem_map_of_mem Cell.id hc)
    have ihx := ih a rest hids2.2 hpre' hA o e hAerr
    simp only [runAll] at ihx
    have hframe := runAllLoop_frame ex (pre' ++ a :: rest) [finalizeCell ex m]
      ((pre' ++ a :: rest).map resetCell) hcond
    rw [List.singleton_append] at hframe
    simp only [runAll, List.cons_append, List.map_cons]
    by_cases hmd : m.type = CellType.markdown
    · rw [runAllLoop_cons_markdown ex m _ _ hmd]
      rw [updateCell_cons_self m.id _ (resetCell m) _ (resetCell_id m) hmnot']
      rw [updateCell_cons_self m.id _ _ _ (by exact resetCell_id m) hmnot']
      rw [head_markdown_final ex m hmd]
      rw [hframe, ihx]
      simp
    · obtain ⟨s, o', e', hex, hs⟩ := hm.resolve_left hmd
      rw [runAllLoop_cons_code_ok ex m _ _ s o' e' hmd hex hs]
      rw [updateCell_cons_self m.id _ (resetCell m) _ (resetCell_id m) hmnot']
      rw [updateCell_cons_self m.id _ _ _ (by exact resetCell_id m) hmnot']
      rw [head_code_final ex m s o' e' hmd hex hs]
      rw [hframe, ihx]
      simp

/-- Witness for the amended C1: a markdown cell, then a failing code
cell, then a code cell that previously succeeded — the run marks the
markdown cell success, the failing cell error, and resets the last cell
to idle without executing it. -/
theorem runAll_failfast_witness :
    runAll exErr (some "c") [cellM, cellA, cellB]
      = [⟨"m", "## notes", none, .success, .markdown⟩,
         ⟨"a", "raise ValueError", some "boom", .error, .code⟩,
         ⟨"b", "print(2)", some "old output", .idle, .code⟩] := by
  have h := runAll_failfast exErr "c" [cellM] cellA [cellB]
    (by decide)
    (by
      intro c hc
      rw [List.mem_singleton] at hc
      subst hc
      exact Or.inl rfl)
    rfl none (some "boom") rfl
  simp only [List.singleton_append] at h
  rw [h]
  decide

end AIAssist
